import Mathlib

/-
  Shallow embedding of the zipflow streaming zipper (zipflow.c).

  Bytes are modelled as Nat values below 256; byte buffers as List Nat.
  Machine integers are Nat with explicit reductions mod 2^w where the C
  code truncates.  The external collaborators (the user put() callback,
  zlib deflate and crc32, libc localtime) are modelled as components of
  an ZExt record that every state transition takes as a parameter.
-/

-- Maximum two and four-byte field values (zipflow.c MAX16 / MAX32).
def MAX16 : Nat := 0xffff

def MAX32 : Nat := 0xffffffff

-- Input chunk size for the deflate pump (zipflow.c CHUNK on 64-bit hosts).
def CHUNK : Nat := 262144

-- Little-endian serializers, mirroring the PUT2 / PUT4 / PUT8 macros.
def put2 (v : Nat) : List Nat := [v % 256, v / 256 % 256]

def put4 (v : Nat) : List Nat := put2 v ++ put2 (v % 2 ^ 32 / 2 ^ 16)

def put8 (v : Nat) : List Nat := put4 v ++ put4 (v % 2 ^ 64 / 2 ^ 32)

-- Per-entry metadata saved for the central directory (head_t).
structure Head where
  name : List Nat
  nlen : Nat
  os : Nat
  ulen : Nat
  clen : Nat
  crc : Nat
  mode : Nat
  ctime : Nat
  atime : Nat
  mtime : Nat
  off : Nat
deriving DecidableEq

-- Broken-down local time, as produced by localtime (struct tm fields that
-- put_time reads).  tm_year counts years since 1900 and may lie below 80.
structure Tm where
  tm_sec : Nat
  tm_min : Nat
  tm_hour : Nat
  tm_mday : Nat
  tm_mon : Nat
  tm_year : Int
deriving DecidableEq

-- clock += clock & 1: round a time_t up to the next even second.  For a
-- twos-complement signed value, clock & 1 equals clock.emod 2.
def round_even (clock : Int) : Int := clock + clock % 2

-- The byte packing done by put_time once a struct tm is in hand.  Each
-- byte is truncated mod 256 by the store into unsigned char.
def dos_bytes (s : Tm) : List Nat :=
  if s.tm_year < 80 then
    [0, 0, (1 <<< 5) + 1, 0]
  else
    [((s.tm_min <<< 5) + s.tm_sec / 2) % 256,
     ((s.tm_hour <<< 3) + s.tm_min / 8) % 256,
     (((s.tm_mon + 1) <<< 5) + s.tm_mday) % 256,
     (((s.tm_year - 80).toNat <<< 1) + (s.tm_mon + 1) / 8) % 256]

-- put_time: convert clock to DOS time; on a localtime failure fall back
-- to the current time.  The double-failure branch is an assert in the C
-- code (unreachable for a working libc); four zero bytes keep the buffer
-- shape in the model.
def put_time (localtime : Int → Option Tm) (now : Int) (clock : Int) :
    List Nat :=
  match localtime (round_even clock) with
  | some s => dos_bytes s
  | none =>
    match localtime (round_even now) with
    | some s => dos_bytes s
    | none => [0, 0, 0, 0]

-- LEVEL(): representation of the compression level in the general purpose
-- bit flag.
def LEVEL (level : Int) : Nat :=
  if level ≥ 9 then 2 else if level = 2 then 4 else if level = 1 then 6 else 0

-- External collaborators: the user put() callback (its result on the n-th
-- invocation for this session), deflate at a given level, incremental
-- crc32, and localtime together with the current wall-clock time.
structure ZExt where
  put : Nat → Bool
  compress : Int → List Nat → List Nat
  crcUpd : Nat → List Nat → Nat
  localtime : Int → Option Tm
  now : Int

-- zip file state (zip_t).  heads lists the committed entries
-- head[0 .. hnum); cur is the in-progress slot head[hnum]; pend holds the
-- bytes fed to the deflate engine since its last reset; calls counts the
-- invocations of the put() callback; logged counts diagnostics issued;
-- valid models id == ID.
structure ZipState where
  valid : Bool
  bad : Bool
  omit_flag : Bool
  feed : Nat
  level : Int
  off : Nat
  calls : Nat
  out : List Nat
  heads : List Head
  cur : Head
  pend : List Nat
  logged : Nat

-- zip_put: single chokepoint for all output.  Discard everything once bad
-- is latched; otherwise invoke the callback, latching bad on failure and
-- advancing the offset on success.
def zip_put (e : ZExt) (z : ZipState) (bytes : List Nat) : ZipState :=
  if z.bad then z
  else if e.put z.calls then { z with bad := true, calls := z.calls + 1 }
  else { z with off := z.off + bytes.length, calls := z.calls + 1,
                out := z.out ++ bytes }

-- The 30 fixed bytes of a local file header (zip_local, buffer local[30]).
def local_bytes (e : ZExt) (level : Int) (h : Head) : List Nat :=
  put4 0x04034b50 ++
  put2 (if h.off ≥ MAX32 then 45 else 20) ++
  put2 (0x808 + LEVEL level) ++
  put2 8 ++
  put_time e.localtime e.now (Int.ofNat h.mtime) ++
  put4 0 ++ put4 0 ++ put4 0 ++
  put2 h.nlen ++
  put2 0

-- zip_local: write the local header and the name.
def zip_local (e : ZExt) (z : ZipState) : ZipState :=
  let z1 := zip_put e z (local_bytes e z.level z.cur)
  zip_put e z1 z.cur.name

-- The data descriptor bytes (zip_desc, buffer desc[24]).
def zip_desc_bytes (h : Head) : List Nat :=
  put4 0x08074b50 ++ put4 h.crc ++
  (if h.ulen ≥ MAX32 ∨ h.clen ≥ MAX32 ∨ h.off ≥ MAX32 then
    put8 h.clen ++ put8 h.ulen
  else
    put4 h.clen ++ put4 h.ulen)

-- zip_desc: write the data descriptor for the entry in the last slot.
def zip_desc (e : ZExt) (z : ZipState) : ZipState :=
  zip_put e z (zip_desc_bytes z.cur)

-- The payload of the Zip64 extended information field written by
-- zip_central: one 8-byte field per overflowing value, in the order
-- uncompressed, compressed, offset.
def zip64_payload (h : Head) : List Nat :=
  (if h.ulen ≥ MAX32 then put8 h.ulen else []) ++
  (if h.clen ≥ MAX32 then put8 h.clen else []) ++
  (if h.off ≥ MAX32 then put8 h.off else [])

-- The complete Zip64 extra field: id and size only when the payload is
-- nonempty (zlen in zip_central; the final zlen there includes the 4
-- header bytes, matching the length of this list).
def zip64_field (h : Head) : List Nat :=
  if (zip64_payload h).length = 0 then []
  else put2 1 ++ put2 (zip64_payload h).length ++ zip64_payload h

-- The UTC timestamp extra field written by zip_central (buffer stamp[36]):
-- id 13 with atime and mtime for Unix, the NTFS field for Windows.
def stamp_field (h : Head) : List Nat :=
  if h.os = 3 then
    put2 13 ++ put2 8 ++ put4 h.atime ++ put4 h.mtime
  else
    put2 10 ++ put2 32 ++ put4 0 ++ put2 1 ++ put2 24 ++
    put8 h.mtime ++ put8 h.atime ++ put8 h.ctime

-- The 46 fixed bytes of a central directory header (zip_central,
-- buffer central[46]).
def central_bytes (e : ZExt) (level : Int) (h : Head) : List Nat :=
  put4 0x02014b50 ++
  put2 ((h.os <<< 8) + 45) ++
  put2 (if (zip64_field h).length ≠ 0 then 45 else 20) ++
  put2 (0x808 + LEVEL level) ++
  put2 8 ++
  put_time e.localtime e.now (Int.ofNat h.mtime) ++
  put4 h.crc ++
  put4 (if h.clen ≥ MAX32 then MAX32 else h.clen) ++
  put4 (if h.ulen ≥ MAX32 then MAX32 else h.ulen) ++
  put2 h.nlen ++
  put2 ((zip64_field h).length + (stamp_field h).length) ++
  put2 0 ++ put2 0 ++ put2 0 ++
  put4 h.mode ++
  put4 (if h.off ≥ MAX32 then MAX32 else h.off)

-- zip_central: write one central directory record.
def zip_central (e : ZExt) (z : ZipState) (h : Head) : ZipState :=
  let z1 := zip_put e z (central_bytes e z.level h)
  let z2 := zip_put e z1 h.name
  let z3 := zip_put e z2 (zip64_field h)
  zip_put e z3 (stamp_field h)

-- The Zip64 end of central directory record (zip_end, buffer xend[56]).
def xend_bytes (hnum len beg : Nat) : List Nat :=
  put4 0x06064b50 ++ put8 44 ++ put2 45 ++ put2 45 ++ put4 0 ++ put4 0 ++
  put8 hnum ++ put8 hnum ++ put8 len ++ put8 beg

-- The Zip64 end of central directory locator (zip_end, buffer loc[20]).
def loc_bytes (off : Nat) : List Nat :=
  put4 0x07064b50 ++ put4 0 ++ put8 off ++ put4 1

-- The classic end of central directory record (zip_end, buffer end[22]),
-- with overflowing fields clamped to the max value of their width.
def eocd_bytes (hnum len beg : Nat) : List Nat :=
  put4 0x06054b50 ++ put2 0 ++ put2 0 ++
  put2 (if hnum ≥ MAX16 then MAX16 else hnum) ++
  put2 (if hnum ≥ MAX16 then MAX16 else hnum) ++
  put4 (if len ≥ MAX32 then MAX32 else len) ++
  put4 (if beg ≥ MAX32 then MAX32 else beg) ++
  put2 0

-- zip_end: write the end records.  The central directory started at beg
-- and ended at the current offset.  Both Zip64 buffers are built before
-- either is written, so the locator records the offset at which the Zip64
-- end record begins.
def zip_end (e : ZExt) (z : ZipState) (beg : Nat) : ZipState :=
  let len := z.off - beg
  let z1 :=
    if z.heads.length ≥ MAX16 ∨ len ≥ MAX32 ∨ beg ≥ MAX32 then
      zip_put e (zip_put e z (xend_bytes z.heads.length len beg))
        (loc_bytes z.off)
    else z
  zip_put e z1 (eocd_bytes z.heads.length len beg)

-- The tail of the deflate pump in zip_deflate, from the point where a
-- short read has marked end of file: a read error latches the omit flag
-- and logs a diagnostic, but the deflate stream is finished regardless.
-- seen is the whole uncompressed input consumed so far; the compressed
-- output, whose chunking across deflate calls is internal to zlib, is
-- modelled as delivered when the stream is finished.  On a write error
-- the C code returns before adding the last block to clen.
def zip_deflate_finish (e : ZExt) (rerr : Bool) (seen : List Nat)
    (z : ZipState) : ZipState :=
  let z1 := if rerr then { z with omit_flag := true, logged := z.logged + 1 }
            else z
  let produced := e.compress z1.level seen
  let z2 := zip_put e z1 produced
  if z2.bad then z2
  else { z2 with cur := { z2.cur with clen := z2.cur.clen + produced.length } }

-- The read-and-deflate loop of zip_deflate.  reads lists the successive
-- fread results; a result shorter than CHUNK marks end of file and stops
-- reading, and rerr tells whether ferror held at that point.  An empty
-- list is a first read of zero bytes.  Each full chunk updates the
-- running CRC-32 and uncompressed length; a write error abandons
-- compression at once.
def zip_deflate_loop (e : ZExt) (reads : List (List Nat)) (rerr : Bool)
    (seen : List Nat) (z : ZipState) : ZipState :=
  match reads with
  | [] =>
    let z1 := { z with cur := { z.cur with crc := e.crcUpd z.cur.crc [] } }
    zip_deflate_finish e rerr seen z1
  | c :: rest =>
    let z1 := { z with cur :=
      { z.cur with ulen := z.cur.ulen + c.length, crc := e.crcUpd z.cur.crc c } }
    if c.length < CHUNK then
      zip_deflate_finish e rerr (seen ++ c) z1
    else
      let z2 := zip_put e z1 []
      if z2.bad then z2
      else zip_deflate_loop e rest rerr (seen ++ c) z2

-- zip_deflate: compress one file into the stream, setting the saved
-- header fields for the lengths and the CRC-32 (crc32(0, NULL, 0) = 0).
def zip_deflate (e : ZExt) (reads : List (List Nat)) (rerr : Bool)
    (z : ZipState) : ZipState :=
  zip_deflate_loop e reads rerr []
    { z with cur := { z.cur with ulen := 0, clen := 0, crc := 0 } }

-- zip_file: write one entry for a regular file named path whose fread
-- results are reads (rerr: ferror at the short read; canOpen: fopen
-- succeeded).  On a read error the entry is completed through its data
-- descriptor and only then dropped from the header list.
def zip_file (e : ZExt) (path : List Nat) (canOpen : Bool)
    (reads : List (List Nat)) (rerr : Bool) (z : ZipState) : ZipState :=
  if 65535 < path.length then { z with logged := z.logged + 1 }
  else if canOpen = false then { z with logged := z.logged + 1 }
  else
    let z0 := { z with cur :=
      { z.cur with name := path, nlen := path.length, off := z.off } }
    let z1 := zip_local e z0
    let z2 := zip_deflate e reads rerr z1
    let z3 := zip_desc e z2
    if z3.omit_flag then { z3 with omit_flag := false }
    else { z3 with heads := z3.heads ++ [z3.cur] }

-- The variadic trailing arguments of zip_meta; the Unix form reads mode,
-- atime, mtime and leaves ctime untouched, the Windows form reads all
-- four.
structure MetaArgs where
  mode : Nat
  ctime : Nat
  atime : Nat
  mtime : Nat
deriving DecidableEq

-- zip_meta: validate the arguments, then store the entry metadata and
-- enter feed mode.  A null session maps to none; an invalid handle to
-- valid = false.  No bytes are written.
def zip_meta (oz : Option ZipState) (path : Option (List Nat)) (os : Int)
    (a : MetaArgs) : Int × Option ZipState :=
  match oz with
  | none => (-1, none)
  | some z =>
    if z.valid = false ∨ path = none ∨ z.feed ≠ 0 then (-1, some z)
    else
      let p := path.getD []
      if 65535 < p.length then (-1, some z)
      else if os ≠ 3 ∧ os ≠ 10 then (-1, some z)
      else
        let h0 := { z.cur with name := p, nlen := p.length }
        let h1 :=
          if os = 3 then
            { h0 with
              os := 3
              mode := ((0o100000 ||| (a.mode &&& 0o7777)) <<< 16) % 2 ^ 32
              atime := a.atime % 2 ^ 32
              mtime := a.mtime % 2 ^ 32 }
          else
            { h0 with
              os := 10
              mode := a.mode % 2 ^ 32
              ctime := a.ctime % 2 ^ 64
              atime := a.atime % 2 ^ 64
              mtime := a.mtime % 2 ^ 64 }
        (0, some { z with
          cur := { h1 with off := z.off, ulen := 0, clen := 0, crc := 0 }
          feed := 1 })

-- The body of zip_data past the argument checks, fed with the len bytes
-- at data.  The first call writes the local header; the deflate loop
-- consumes all input, emits compressed bytes (modelled as delivered when
-- the stream is finished), and returns early on a write error before the
-- entry is completed; last = true finishes the stream, writes the data
-- descriptor, commits the record and leaves feed mode.
def zip_data_core (e : ZExt) (z : ZipState) (input : List Nat)
    (last : Bool) : Int × ZipState :=
  let z1 := if z.feed = 1 then { zip_local e z with feed := 2 } else z
  let z2 :=
    if input.length ≠ 0 then
      { z1 with cur :=
        { z1.cur with crc := e.crcUpd z1.cur.crc input, ulen := z1.cur.ulen + input.length } }
    else z1
  let produced := if last then e.compress z2.level (z2.pend ++ input) else []
  let z3 := { z2 with pend := z2.pend ++ input }
  let z4 := zip_put e z3 produced
  if z4.bad then (1, z4)
  else
    let z5 := { z4 with cur := { z4.cur with
                  clen := z4.cur.clen + produced.length } }
    if last then
      let z6 := zip_desc e { z5 with pend := [] }
      ((if z6.bad then 1 else 0),
       { z6 with heads := z6.heads ++ [z6.cur], feed := 0 })
    else ((if z5.bad then 1 else 0), z5)

-- zip_data: argument checks, the zero-length no-op, then the body.
def zip_data (e : ZExt) (oz : Option ZipState) (buf : Option (List Nat))
    (len : Nat) (last : Bool) : Int × Option ZipState :=
  match oz with
  | none => (-1, none)
  | some z =>
    if z.valid = false ∨ z.feed = 0 ∨ (buf = none ∧ len ≠ 0) then
      (-1, some z)
    else if len = 0 ∧ last = false then ((if z.bad then 1 else 0), some z)
    else
      let r := zip_data_core e z ((buf.getD []).take len) last
      (r.1, some r.2)

-- The state reached by zip_close just before everything is freed: end a
-- pending fed entry (only when no write error is latched), then write the
-- central directory records, stopping early on a write error, and the end
-- records.
def zip_close_state (e : ZExt) (z : ZipState) : ZipState :=
  let z1 := if z.feed ≠ 0 ∧ z.bad = false then (zip_data_core e z [] true).2
            else z
  let beg := z1.off
  let z2 := z1.heads.foldl (fun acc h =>
    if acc.bad then acc else zip_central e acc h) z1
  zip_end e z2 beg

-- zip_close: an invalid handle is rejected without freeing; otherwise the
-- directory is written, everything is freed (the session becomes none)
-- and the latched write-error flag is returned.
def zip_close (e : ZExt) (oz : Option ZipState) : Int × Option ZipState :=
  match oz with
  | none => (-1, none)
  | some z =>
    if z.valid = false then (-1, some z)
    else ((if (zip_close_state e z).bad then 1 else 0), none)

/-- Modelled from the spec: zip_level is declared in the library header
and called by the zips CLI, but its definition is not among the provided
sources.  Per the spec, level(session, new_level) returns 0 or 1 and
reconfigures the deflate engine compression level between entries; the
failure return reports a latched write error, after which no
reconfiguration is attempted. -/
def zip_level (z : ZipState) (lvl : Int) : Int × ZipState :=
  if z.bad then (1, z) else (0, { z with level := lvl })

-- A sequence of writes through the single output chokepoint.
def zip_puts (e : ZExt) (z : ZipState) (ws : List (List Nat)) : ZipState :=
  ws.foldl (zip_put e) z

-- What the deflate pump consumes from the fread results: reading stops at
-- the first result shorter than CHUNK.
def readConsumed : List (List Nat) → List Nat
  | [] => []
  | c :: rest => if c.length < CHUNK then c else c ++ readConsumed rest

-- Concrete collaborators and states used to instantiate the theorems.
def tmW : Tm := ⟨4, 3, 2, 1, 0, 126⟩

def eW : ZExt := ⟨fun _ => false, fun _ l => l, fun c _ => c,
  fun _ => some tmW, 0⟩

def hW3 : Head := ⟨[97], 1, 3, 0, 0, 0, 0, 0, 10, 20, 0⟩

def hW10 : Head := ⟨[99], 1, 10, 0, 0, 0, 0, 5, 10, 20, 0⟩

def hWbig : Head := ⟨[98], 1, 3, 2 ^ 32, 5, 7, 0, 0, 0, 0, 0⟩

def zW : ZipState := ⟨true, false, false, 0, -1, 0, 0, [], [], hW3, [], 0⟩

-- Further concrete fixtures for instantiating the theorems.
def eFail : ZExt := ⟨fun _ => true, fun _ l => l, fun c _ => c,
  fun _ => some tmW, 0⟩

def zBad : ZipState := ⟨true, true, false, 1, -1, 9, 3, [7], [], hW3, [], 0⟩

def zWfeed : ZipState := ⟨true, false, false, 1, -1, 0, 0, [], [], hW3, [], 0⟩

def aW : MetaArgs := ⟨420, 0, 10, 20⟩

-- With the write-error flag latched, the chokepoint discards the request
-- without touching the state (in particular the callback is not invoked
-- and the offset is frozen).
theorem zip_put_bad (e : ZExt) (z : ZipState) (b : List Nat)
    (h : z.bad = true) : zip_put e z b = z := by
  simp [zip_put, h]

-- With no error latched and a callback that accepts the write, the
-- chokepoint appends the bytes and advances the offset.
theorem zip_put_ok (e : ZExt) (z : ZipState) (b : List Nat)
    (hbad : z.bad = false) (hp : e.put z.calls = false) :
    zip_put e z b = { z with off := z.off + b.length, calls := z.calls + 1,
                             out := z.out ++ b } := by
  simp [zip_put, hbad, hp]

-- Effect of the finish step under a sink that accepts every write.
theorem zip_deflate_finish_ok (e : ZExt) (rerr : Bool) (seen : List Nat)
    (z : ZipState) (hput : ∀ n, e.put n = false) (hbad : z.bad = false) :
    zip_deflate_finish e rerr seen z =
      { z with off := z.off + (e.compress z.level seen).length
               calls := z.calls + 1
               out := z.out ++ e.compress z.level seen
               omit_flag := z.omit_flag || rerr
               logged := z.logged + (if rerr then 1 else 0)
               cur := { z.cur with
                 clen := z.cur.clen + (e.compress z.level seen).length } } := by
  cases rerr <;> simp [zip_deflate_finish, zip_put_ok, hbad, hput]

-- Effect of the whole read-and-deflate loop under a sink that accepts
-- every write: the consumed bytes are compressed and emitted, a read
-- error latches the omit flag and logs one diagnostic, and the running
-- counters advance; nothing else in the state changes.
theorem zip_deflate_loop_ok (e : ZExt) (hput : ∀ n, e.put n = false)
    (reads : List (List Nat)) (rerr : Bool) :
    ∀ (seen : List Nat) (z : ZipState), z.bad = false →
    ∃ c k,
      zip_deflate_loop e reads rerr seen z =
      { z with off := z.off +
                 (e.compress z.level (seen ++ readConsumed reads)).length
               calls := k
               out := z.out ++ e.compress z.level (seen ++ readConsumed reads)
               omit_flag := z.omit_flag || rerr
               logged := z.logged + (if rerr then 1 else 0)
               cur := { z.cur with
                 ulen := z.cur.ulen + (readConsumed reads).length
                 crc := c
                 clen := z.cur.clen +
                   (e.compress z.level (seen ++ readConsumed reads)).length } } := by
  induction reads with
  | nil =>
    intro seen z hbad
    obtain ⟨v, b, om, f, lv, o, cal, ou, hs, ⟨nm, nl, os, ul, cl, cr, mo, ct, at_, mt, oh⟩, pe, lg⟩ := z
    simp only [ZipState.bad] at hbad
    subst hbad
    refine ⟨e.crcUpd cr [], cal + 1, ?_⟩
    simp [zip_deflate_loop, readConsumed, zip_deflate_finish_ok, hput]
  | cons c rest ih =>
    intro seen z hbad
    obtain ⟨v, b, om, f, lv, o, cal, ou, hs, ⟨nm, nl, os, ul, cl, cr, mo, ct, at_, mt, oh⟩, pe, lg⟩ := z
    simp only [ZipState.bad] at hbad
    subst hbad
    by_cases hc : c.length < CHUNK
    · refine ⟨e.crcUpd cr c, cal + 1, ?_⟩
      simp [zip_deflate_loop, readConsumed, hc, zip_deflate_finish_ok, hput]
    · obtain ⟨c2, k2, hrec⟩ := ih (seen ++ c)
        (zip_put e ⟨v, false, om, f, lv, o, cal, ou, hs,
          ⟨nm, nl, os, ul + c.length, cl, e.crcUpd cr c, mo, ct, at_, mt, oh⟩,
          pe, lg⟩ [])
        (by simp [zip_put_ok, hput])
      refine ⟨c2, k2, ?_⟩
      simp only [zip_deflate_loop, readConsumed, hc, if_neg hc]
      simp only [zip_put_ok, hput] at hrec ⊢
      simp at hrec
      simp [hrec, readConsumed, List.append_assoc, Nat.add_assoc,
        List.length_append]

-- Effect of writing a local header under a sink that accepts every write:
-- exactly the 30 header bytes followed by the name are appended.
theorem zip_local_ok (e : ZExt) (z : ZipState) (hput : ∀ n, e.put n = false)
    (hbad : z.bad = false) :
    zip_local e z = { z with
      off := z.off + (local_bytes e z.level z.cur).length + z.cur.name.length
      calls := z.calls + 2
      out := z.out ++ local_bytes e z.level z.cur ++ z.cur.name } := by
  simp [zip_local, zip_put_ok, hput, hbad]

-- Effect of zip_file on an openable file under a sink that accepts every
-- write: the local header, the name, the compressed data and the data
-- descriptor are emitted in order; on a read error one diagnostic is
-- logged and the record is not committed, otherwise it is appended.
theorem zip_file_ok (e : ZExt) (path : List Nat) (reads : List (List Nat))
    (rerr : Bool) (z : ZipState) (hput : ∀ n, e.put n = false)
    (hbad : z.bad = false) (homit : z.omit_flag = false)
    (hpath : path.length ≤ 65535) :
    ∃ w : ZipState, ∃ c : Nat,
      zip_file e path true reads rerr z = w ∧
      w.cur = { z.cur with
        name := path
        nlen := path.length
        off := z.off
        ulen := (readConsumed reads).length
        clen := (e.compress z.level (readConsumed reads)).length
        crc := c } ∧
      w.bad = false ∧ w.valid = z.valid ∧ w.feed = z.feed ∧
      w.level = z.level ∧ w.pend = z.pend ∧ w.omit_flag = false ∧
      w.logged = z.logged + (if rerr then 1 else 0) ∧
      w.heads = (if rerr then z.heads else z.heads ++ [w.cur]) ∧
      w.out = z.out ++
        local_bytes e z.level { z.cur with
          name := path
          nlen := path.length
          off := z.off } ++
        path ++ e.compress z.level (readConsumed reads) ++
        zip_desc_bytes w.cur := by
  have hnlt : ¬ 65535 < path.length := by omega
  obtain ⟨v, b, om, f, lv, o, cal, ou, hs,
    ⟨nm, nl, os, ul, cl, cr, mo, ct, at_, mt, oh⟩, pe, lg⟩ := z
  simp only [ZipState.bad] at hbad
  simp only [ZipState.omit_flag] at homit
  subst hbad homit
  obtain ⟨c0, k0, hloop⟩ := zip_deflate_loop_ok e hput reads rerr []
    ⟨v, false, false, f, lv,
      o + (local_bytes e lv
        ⟨path, path.length, os, ul, cl, cr, mo, ct, at_, mt, o⟩).length +
        path.length,
      cal + 2,
      ou ++ (local_bytes e lv
        ⟨path, path.length, os, ul, cl, cr, mo, ct, at_, mt, o⟩ ++ path),
      hs, ⟨path, path.length, os, 0, 0, 0, mo, ct, at_, mt, o⟩, pe, lg⟩ rfl
  refine ⟨_, c0, rfl, ?_⟩
  cases rerr <;>
    simp [zip_file, hnlt, zip_local_ok, hput, zip_deflate, hloop, zip_desc,
      zip_put_ok]

@[simp] theorem put2_length (v : Nat) : (put2 v).length = 2 := by
  simp [put2]

@[simp] theorem put4_length (v : Nat) : (put4 v).length = 4 := by
  simp [put4]

@[simp] theorem put8_length (v : Nat) : (put8 v).length = 8 := by
  simp [put8]

@[simp] theorem dos_bytes_length (s : Tm) : (dos_bytes s).length = 4 := by
  by_cases h : s.tm_year < 80 <;> simp [dos_bytes, h]

@[simp] theorem put_time_length (lt : Int → Option Tm) (now clock : Int) :
    (put_time lt now clock).length = 4 := by
  unfold put_time
  cases lt (round_even clock) with
  | some s => simp
  | none => cases lt (round_even now) with
    | some s => simp
    | none => simp

-- MAX32 as the claims write it.
theorem max32_eq : MAX32 = 2 ^ 32 - 1 := by decide

-- The 32-bit clamp used by the central directory and the end record.
theorem clamp32_eq (a : Nat) :
    (if a ≥ MAX32 then MAX32 else a) = min a (2 ^ 32 - 1) := by
  rw [max32_eq]
  by_cases h : a ≥ 2 ^ 32 - 1
  · rw [if_pos h]; omega
  · rw [if_neg h]; omega

-- The Zip64 extra field is nonempty exactly when a field overflows.
theorem zip64_field_cond (h : Head) :
    (zip64_field h).length ≠ 0 ↔
      (h.ulen ≥ 2 ^ 32 - 1 ∨ h.clen ≥ 2 ^ 32 - 1 ∨ h.off ≥ 2 ^ 32 - 1) := by
  rw [max32_eq.symm]
  by_cases h1 : h.ulen ≥ MAX32 <;> by_cases h2 : h.clen ≥ MAX32 <;>
    by_cases h3 : h.off ≥ MAX32 <;>
    simp [zip64_field, zip64_payload, h1, h2, h3]

-- Effect of writing one central directory record under a sink that
-- accepts every write: the fixed header, the name, the Zip64 extra field
-- (possibly empty) and the timestamp extra field are appended in order.
theorem zip_central_ok (e : ZExt) (z : ZipState) (h : Head)
    (hput : ∀ n, e.put n = false) (hbad : z.bad = false) :
    zip_central e z h = { z with
      off := z.off + (central_bytes e z.level h).length + h.name.length +
        (zip64_field h).length + (stamp_field h).length
      calls := z.calls + 4
      out := z.out ++ central_bytes e z.level h ++ h.name ++
        zip64_field h ++ stamp_field h } := by
  simp [zip_central, zip_put_ok, hput, hbad]

/-- Claim C1: for every completed entry, the data descriptor uses the
24-byte Zip64 form, with the 8-byte compressed length before the 8-byte
uncompressed length, exactly when the uncompressed length, the compressed
length or the local header offset is at least 2^32 - 1, and the 16-byte
legacy form otherwise; the central directory record carries a Zip64 extra
field exactly under the same condition, its payload lists exactly the
overflowing fields in the order uncompressed, compressed, offset, and
every clamped classical field is replaced by the max-value sentinel. -/
theorem claim_C1_zip64_promotion (e : ZExt) (z : ZipState) (h : Head)
    (hput : ∀ n, e.put n = false) (hbad : z.bad = false) :
    zip_desc_bytes h =
      put4 0x08074b50 ++ put4 h.crc ++
        (if h.ulen ≥ 2 ^ 32 - 1 ∨ h.clen ≥ 2 ^ 32 - 1 ∨ h.off ≥ 2 ^ 32 - 1
         then put8 h.clen ++ put8 h.ulen
         else put4 h.clen ++ put4 h.ulen) ∧
    (zip_desc_bytes h).length =
      (if h.ulen ≥ 2 ^ 32 - 1 ∨ h.clen ≥ 2 ^ 32 - 1 ∨ h.off ≥ 2 ^ 32 - 1
       then 24 else 16) ∧
    (zip64_field h ≠ [] ↔
      (h.ulen ≥ 2 ^ 32 - 1 ∨ h.clen ≥ 2 ^ 32 - 1 ∨ h.off ≥ 2 ^ 32 - 1)) ∧
    zip64_payload h =
      (if h.ulen ≥ 2 ^ 32 - 1 then put8 h.ulen else []) ++
      (if h.clen ≥ 2 ^ 32 - 1 then put8 h.clen else []) ++
      (if h.off ≥ 2 ^ 32 - 1 then put8 h.off else []) ∧
    (zip64_field h ≠ [] →
      zip64_field h =
        put2 1 ++ put2 (zip64_payload h).length ++ zip64_payload h) ∧
    central_bytes e z.level h =
      put4 0x02014b50 ++ put2 ((h.os <<< 8) + 45) ++
      put2 (if h.ulen ≥ 2 ^ 32 - 1 ∨ h.clen ≥ 2 ^ 32 - 1 ∨
               h.off ≥ 2 ^ 32 - 1 then 45 else 20) ++
      put2 (0x808 + LEVEL z.level) ++ put2 8 ++
      put_time e.localtime e.now (Int.ofNat h.mtime) ++
      put4 h.crc ++
      put4 (min h.clen (2 ^ 32 - 1)) ++
      put4 (min h.ulen (2 ^ 32 - 1)) ++
      put2 h.nlen ++
      put2 ((zip64_field h).length + (stamp_field h).length) ++
      put2 0 ++ put2 0 ++ put2 0 ++
      put4 h.mode ++
      put4 (min h.off (2 ^ 32 - 1)) ∧
    (zip_central e z h).out = z.out ++ central_bytes e z.level h ++
      h.name ++ zip64_field h ++ stamp_field h := by
  refine ⟨?_, ?_, ?_, ?_, ?_, ?_, ?_⟩
  · simp only [zip_desc_bytes, max32_eq]
  · by_cases hcond : (4294967295 : Nat) ≤ h.ulen ∨
      (4294967295 : Nat) ≤ h.clen ∨ (4294967295 : Nat) ≤ h.off <;>
      simp [zip_desc_bytes, max32_eq, hcond]
  · rw [Ne, ← List.length_eq_zero]
    exact zip64_field_cond h
  · simp only [zip64_payload, max32_eq]
  · intro hne
    by_cases hp : (zip64_payload h).length = 0
    · simp [zip64_field, hp] at hne
    · simp [zip64_field, hp]
  · simp only [central_bytes, clamp32_eq, zip64_field_cond]
  · simp [zip_central_ok e z h hput hbad]

-- A value shifted left by k bits combines with a k-bit value the same way
-- by addition and by bitwise or (the DOS time bytes rely on this).
theorem lor_eq_add_of_lt (a b k : Nat) (hb : b < 2 ^ k) :
    a * 2 ^ k ||| b = a * 2 ^ k + b := by
  induction k generalizing b with
  | zero =>
    have hb0 : b = 0 := by simpa using hb
    subst hb0; simp
  | succ k ih =>
    have hc : b / 2 < 2 ^ k := by
      have h2 : 2 ^ (k + 1) = 2 ^ k * 2 := Nat.pow_succ ..
      omega
    have hx : a * 2 ^ (k + 1) = 2 * (a * 2 ^ k) := by ring
    have hbit : ∀ (b1 b2 : Bool) (m n : Nat),
        Nat.bit b1 m ||| Nat.bit b2 n = Nat.bit (b1 || b2) (m ||| n) :=
      fun b1 m b2 n => Nat.lor_bit _ _ _ _
    rcases Nat.even_or_odd b with he | ho
    · obtain ⟨c, hcc⟩ := he
      have hb2 : b = 2 * (b / 2) := by omega
      rw [hx, hb2]
      have := hbit false false (a * 2 ^ k) (b / 2)
      simp only [Nat.bit_val, Bool.toNat] at this
      simp at this
      calc 2 * (a * 2 ^ k) ||| 2 * (b / 2)
          = 2 * ((a * 2 ^ k) ||| (b / 2)) := by simpa using this
        _ = 2 * (a * 2 ^ k + b / 2) := by rw [ih _ hc]
        _ = 2 * (a * 2 ^ k) + 2 * (b / 2) := by ring
    · obtain ⟨c0, hcc⟩ := ho
      have hb2 : b = 2 * (b / 2) + 1 := by omega
      rw [hx, hb2]
      have := hbit false true (a * 2 ^ k) (b / 2)
      simp only [Nat.bit_val, Bool.toNat] at this
      simp at this
      calc 2 * (a * 2 ^ k) ||| (2 * (b / 2) + 1)
          = 2 * ((a * 2 ^ k) ||| (b / 2)) + 1 := by simpa using this
        _ = 2 * (a * 2 ^ k + b / 2) + 1 := by rw [ih _ hc]
        _ = 2 * (a * 2 ^ k) + (2 * (b / 2) + 1) := by ring

theorem shiftLeft_add_eq_lor (a b k : Nat) (hb : b < 2 ^ k) :
    a <<< k + b = (a <<< k) ||| b := by
  rw [Nat.shiftLeft_eq]
  exact (lor_eq_add_of_lt a b k hb).symm

theorem max16_eq : MAX16 = 2 ^ 16 - 1 := by decide

-- The 16-bit clamp used by the end record.
theorem clamp16_eq (a : Nat) :
    (if a ≥ MAX16 then MAX16 else a) = min a (2 ^ 16 - 1) := by
  rw [max16_eq]
  by_cases h : a ≥ 2 ^ 16 - 1
  · rw [if_pos h]; omega
  · rw [if_neg h]; omega

-- With the write-error flag latched, any sequence of writes leaves the
-- state untouched.
theorem zip_puts_bad (e : ZExt) (ws : List (List Nat)) :
    ∀ z : ZipState, z.bad = true → zip_puts e z ws = z := by
  induction ws with
  | nil => intro z _; rfl
  | cons w ws ih =>
    intro z hz
    show zip_puts e (zip_put e z w) ws = z
    rw [zip_put_bad e z w hz]
    exact ih z hz

-- With the write-error flag latched, the central directory loop in
-- zip_close writes nothing.
theorem central_foldl_bad (e : ZExt) (hs : List Head) :
    ∀ z : ZipState, z.bad = true →
    hs.foldl (fun acc h => if acc.bad then acc else zip_central e acc h) z
      = z := by
  induction hs with
  | nil => intro z _; rfl
  | cons h hs ih =>
    intro z hz
    simp only [List.foldl_cons, if_pos hz]
    exact ih z hz

-- With the write-error flag latched, zip_end writes nothing.
theorem zip_end_bad (e : ZExt) (z : ZipState) (beg : Nat)
    (hz : z.bad = true) : zip_end e z beg = z := by
  simp [zip_end, zip_put_bad, hz]

/-- Witness for C1: a concrete entry past the promotion threshold takes
the 24-byte descriptor, a small one takes the 16-byte form. -/
theorem claim_C1_zip64_promotion_witness :
    (zip_desc_bytes hWbig).length = 24 ∧ (zip_desc_bytes hW3).length = 16 :=
  ⟨(claim_C1_zip64_promotion eW zW hWbig (fun _ => rfl) rfl).2.1.trans
      (by decide),
   (claim_C1_zip64_promotion eW zW hW3 (fun _ => rfl) rfl).2.1.trans
      (by decide)⟩

/-- Claim C10: for every entry the local file header is written with an
extra-field length of 0 and no extra-field bytes after the name: the
header is exactly 30 bytes whose last two bytes (the extra-field length)
are zero, and the bytes emitted for it are exactly the header followed by
the name; the Zip64 and timestamp extra fields appear only in
central-directory records. -/
theorem claim_C10_no_local_extra (e : ZExt) (z : ZipState)
    (hput : ∀ n, e.put n = false) (hbad : z.bad = false) :
    (zip_local e z).out = z.out ++ local_bytes e z.level z.cur ++
      z.cur.name ∧
    (local_bytes e z.level z.cur).length = 30 ∧
    (local_bytes e z.level z.cur).drop 28 = put2 0 ∧
    (zip_central e z z.cur).out = z.out ++ central_bytes e z.level z.cur ++
      z.cur.name ++ zip64_field z.cur ++ stamp_field z.cur := by
  refine ⟨?_, ?_, ?_, ?_⟩
  · simp [zip_local_ok e z hput hbad]
  · simp [local_bytes]
  · unfold local_bytes
    exact List.drop_left' (by simp)
  · simp [zip_central_ok e z z.cur hput hbad]

/-- Witness for C10: the header for a concrete entry is 30 bytes and ends
in a zero extra-field length. -/
theorem claim_C10_no_local_extra_witness :
    (local_bytes eW zW.level zW.cur).length = 30 ∧
    (local_bytes eW zW.level zW.cur).drop 28 = put2 0 :=
  ⟨(claim_C10_no_local_extra eW zW (fun _ => rfl) rfl).2.1,
   (claim_C10_no_local_extra eW zW (fun _ => rfl) rfl).2.2.1⟩

/-- Counterexample for C5: the code writes extra-field id 13 (0x000D, the
PKWARE Unix id) for a Unix entry, not 0x5455 as the claim states. -/
theorem claim_C5_counterexample :
    (stamp_field hW3).take 2 = put2 13 ∧ put2 13 ≠ put2 0x5455 ∧
    stamp_field hW3 ≠
      put2 0x5455 ++ put2 8 ++ put4 hW3.atime ++ put4 hW3.mtime := by
  decide

/-- Claim C5 (amended): for every central-directory record of a Unix
(os = 3) entry, the timestamp extra field uses extra-field id 0x000D and
is 12 bytes total: id(2), size=8(2), atime(4), mtime(4); for every
Windows (os = 10) entry it uses the 0x000A NTFS extra field, 36 bytes
total, with mtime, atime, ctime FILETIMEs in a single tag-1 subrecord of
24 bytes; the field is emitted at the end of the central record. -/
theorem claim_C5_timestamp_extra (e : ZExt) (z : ZipState) (h : Head)
    (hput : ∀ n, e.put n = false) (hbad : z.bad = false) :
    (h.os = 3 →
      stamp_field h = put2 13 ++ put2 8 ++ put4 h.atime ++ put4 h.mtime ∧
      (stamp_field h).length = 12) ∧
    (h.os = 10 →
      stamp_field h = put2 10 ++ put2 32 ++ put4 0 ++ put2 1 ++ put2 24 ++
        put8 h.mtime ++ put8 h.atime ++ put8 h.ctime ∧
      (stamp_field h).length = 36) ∧
    (zip_central e z h).out = z.out ++ central_bytes e z.level h ++
      h.name ++ zip64_field h ++ stamp_field h := by
  refine ⟨?_, ?_, ?_⟩
  · intro h3; simp [stamp_field, h3]
  · intro h10; simp [stamp_field, h10]
  · simp [zip_central_ok e z h hput hbad]

/-- Witness for C5 (amended): concrete Unix and Windows entries yield 12
and 36 byte timestamp extra fields. -/
theorem claim_C5_timestamp_extra_witness :
    (stamp_field hW3).length = 12 ∧ (stamp_field hW10).length = 36 :=
  ⟨((claim_C5_timestamp_extra eW zW hW3 (fun _ => rfl) rfl).1 rfl).2,
   ((claim_C5_timestamp_extra eW zW hW10 (fun _ => rfl) rfl).2.1 rfl).2⟩

/-- Claim C6: every POSIX-seconds timestamp written into a local or
central header is first rounded up to the next even second and converted
to local broken-down time; if the resulting year is before 1980 the four
emitted bytes are exactly 00 00 21 00, and otherwise the four bytes are
minute<<5 or seconds/2, hour<<3 or minute>>3, month<<5 or day, and
(year-1980)<<1 or month>>3, with the month numbered from 1; if local-time
conversion fails, the current wall-clock time is substituted under the
same rules. -/
theorem claim_C6_dos_time (lt : Int → Option Tm) (now clock : Int)
    (s : Tm) (hsec : s.tm_sec ≤ 61) (hmin : s.tm_min ≤ 59)
    (hmon : s.tm_mon ≤ 11) (hmday : s.tm_mday ≤ 31) :
    (round_even clock) % 2 = 0 ∧ clock ≤ round_even clock ∧
    round_even clock ≤ clock + 1 ∧
    (lt (round_even clock) = some s → put_time lt now clock = dos_bytes s) ∧
    (lt (round_even clock) = none → lt (round_even now) = some s →
      put_time lt now clock = dos_bytes s) ∧
    (s.tm_year < 80 → dos_bytes s = [0x00, 0x00, 0x21, 0x00]) ∧
    (80 ≤ s.tm_year →
      dos_bytes s =
        [((s.tm_min <<< 5) ||| s.tm_sec / 2) % 256,
         ((s.tm_hour <<< 3) ||| s.tm_min / 8) % 256,
         (((s.tm_mon + 1) <<< 5) ||| s.tm_mday) % 256,
         (((s.tm_year - 80).toNat <<< 1) ||| (s.tm_mon + 1) / 8) % 256]) := by
  refine ⟨?_, ?_, ?_, ?_, ?_, ?_, ?_⟩
  · unfold round_even; omega
  · unfold round_even; omega
  · unfold round_even; omega
  · intro h; simp [put_time, h]
  · intro h1 h2; simp [put_time, h1, h2]
  · intro hy; simp [dos_bytes, hy]
  · intro hy
    have hnlt : ¬ s.tm_year < 80 := by omega
    simp only [dos_bytes, if_neg hnlt]
    rw [shiftLeft_add_eq_lor _ _ _ (by omega : s.tm_sec / 2 < 2 ^ 5),
        shiftLeft_add_eq_lor _ _ _ (by omega : s.tm_min / 8 < 2 ^ 3),
        shiftLeft_add_eq_lor _ _ _ (by omega : s.tm_mday < 2 ^ 5),
        shiftLeft_add_eq_lor _ _ _ (by omega : (s.tm_mon + 1) / 8 < 2 ^ 1)]

/-- Witness for C6: at a concrete even time and a concrete broken-down
time, put_time yields the packed DOS bytes. -/
theorem claim_C6_dos_time_witness :
    put_time (fun _ => some tmW) 0 7 = dos_bytes tmW ∧
    dos_bytes tmW = [98, 16, 33, 92] :=
  ⟨(claim_C6_dos_time (fun _ => some tmW) 0 7 tmW (by decide) (by decide)
      (by decide) (by decide)).2.2.2.1 rfl,
   by decide⟩

/-- Claim C2: for a file-backed entry whose input file reads with ferror
mid-stream, the deflate stream is still finished and the data descriptor
is still written, so the bytes up to the descriptor are emitted as for a
successful entry; a diagnostic is logged; the record is discarded only
after the descriptor is written, so the entry never appears in the header
list used for the central directory; the session is not aborted and a
following entry proceeds normally. -/
theorem claim_C2_read_error_recoverable (e : ZExt) (z : ZipState)
    (path path2 : List Nat) (reads reads2 : List (List Nat))
    (hput : ∀ n, e.put n = false) (hbad : z.bad = false)
    (homit : z.omit_flag = false) (hpath : path.length ≤ 65535)
    (hpath2 : path2.length ≤ 65535) :
    ∃ w : ZipState,
      zip_file e path true reads true z = w ∧
      w.out = z.out ++
        local_bytes e z.level { z.cur with
          name := path
          nlen := path.length
          off := z.off } ++
        path ++ e.compress z.level (readConsumed reads) ++
        zip_desc_bytes w.cur ∧
      w.heads = z.heads ∧
      w.omit_flag = false ∧
      w.bad = false ∧
      w.logged = z.logged + 1 ∧
      (zip_file e path2 true reads2 false w).heads.length =
        z.heads.length + 1 := by
  obtain ⟨w, c, hw, hcur, hbadw, hvalid, hfeed, hlevel, hpend, homitw,
    hlog, hheads, hout⟩ := zip_file_ok e path reads true z hput hbad homit
      hpath
  have hheadsz : w.heads = z.heads := by simpa using hheads
  refine ⟨w, hw, hout, hheadsz, homitw, hbadw, by simpa using hlog, ?_⟩
  obtain ⟨w2, c2, hw2, hcur2, _, _, _, _, _, _, _, hheads2, _⟩ :=
    zip_file_ok e path2 reads2 false w hput hbadw homitw hpath2
  rw [hw2]
  simp only [if_neg (by simp : ¬(false = true))] at hheads2
  rw [hheads2, hheadsz]
  simp

/-- Witness for C2: a concrete entry with a read error is completed but
leaves the header list empty. -/
theorem claim_C2_read_error_recoverable_witness :
    (zip_file eW [97] true [[5, 6]] true zW).heads = [] ∧
    (zip_file eW [97] true [[5, 6]] true zW).logged = 1 := by
  obtain ⟨w, hw, hout, hheads, homitw, hbadw, hlog, hnext⟩ :=
    claim_C2_read_error_recoverable eW zW [97] [98] [[5, 6]] [[7]]
      (fun _ => rfl) rfl rfl (by decide) (by decide)
  rw [hw]
  exact ⟨hheads, hlog⟩

/-- Claim C3: once the put callback returns nonzero, the bad flag is
latched, the callback is never invoked again for the session (the call
count stays at its value at the failing call), every subsequent write
request is silently discarded, and the offset stays frozen at its value
when the error latched. -/
theorem claim_C3_sticky_write_error (e : ZExt) (z : ZipState)
    (w : List Nat) (ws : List (List Nat)) (hbad : z.bad = false)
    (hfail : e.put z.calls = true) :
    zip_puts e z (w :: ws) = { z with bad := true, calls := z.calls + 1 } ∧
    (zip_puts e z (w :: ws)).off = z.off ∧
    (zip_puts e z (w :: ws)).out = z.out ∧
    (zip_puts e z (w :: ws)).calls = z.calls + 1 ∧
    (zip_puts e z (w :: ws)).bad = true := by
  have h1 : zip_put e z w = { z with bad := true, calls := z.calls + 1 } := by
    simp [zip_put, hbad, hfail]
  have h2 : zip_puts e z (w :: ws) =
      { z with bad := true, calls := z.calls + 1 } := by
    show zip_puts e (zip_put e z w) ws = _
    rw [h1, zip_puts_bad e ws _ rfl]
  refine ⟨h2, ?_, ?_, ?_, ?_⟩ <;> rw [h2]

/-- Witness for C3: a callback that rejects the first write freezes a
concrete session at once. -/
theorem claim_C3_sticky_write_error_witness :
    zip_puts eFail zW [[1, 2, 3], [4]] =
      { zW with bad := true, calls := zW.calls + 1 } :=
  (claim_C3_sticky_write_error eFail zW [1, 2, 3] [[4]] rfl rfl).1

/-- Claim C4: at close, the Zip64 end-of-central-directory record and the
Zip64 locator are emitted exactly when the entry count is at least
2^16 - 1, or the central-directory length or start offset is at least
2^32 - 1; the classic 22-byte end record is always emitted last, with any
overflowing count, length or offset clamped to the max value of its
width. -/
theorem claim_C4_end_records (e : ZExt) (z : ZipState) (beg : Nat)
    (hput : ∀ n, e.put n = false) (hbad : z.bad = false) :
    ((z.heads.length ≥ 2 ^ 16 - 1 ∨ z.off - beg ≥ 2 ^ 32 - 1 ∨
        beg ≥ 2 ^ 32 - 1) →
      (zip_end e z beg).out = z.out ++
        xend_bytes z.heads.length (z.off - beg) beg ++ loc_bytes z.off ++
        eocd_bytes z.heads.length (z.off - beg) beg) ∧
    (¬(z.heads.length ≥ 2 ^ 16 - 1 ∨ z.off - beg ≥ 2 ^ 32 - 1 ∨
        beg ≥ 2 ^ 32 - 1) →
      (zip_end e z beg).out = z.out ++
        eocd_bytes z.heads.length (z.off - beg) beg) ∧
    (eocd_bytes z.heads.length (z.off - beg) beg).length = 22 ∧
    eocd_bytes z.heads.length (z.off - beg) beg =
      put4 0x06054b50 ++ put2 0 ++ put2 0 ++
      put2 (min z.heads.length (2 ^ 16 - 1)) ++
      put2 (min z.heads.length (2 ^ 16 - 1)) ++
      put4 (min (z.off - beg) (2 ^ 32 - 1)) ++
      put4 (min beg (2 ^ 32 - 1)) ++ put2 0 ∧
    (xend_bytes z.heads.length (z.off - beg) beg).length = 56 ∧
    (loc_bytes z.off).length = 20 := by
  refine ⟨?_, ?_, ?_, ?_, ?_, ?_⟩
  · intro hcond
    have hc : z.heads.length ≥ MAX16 ∨ z.off - beg ≥ MAX32 ∨
        beg ≥ MAX32 := by
      rw [max16_eq, max32_eq]; exact hcond
    simp [zip_end, if_pos hc, zip_put_ok, hput, hbad]
  · intro hcond
    have hc : ¬(z.heads.length ≥ MAX16 ∨ z.off - beg ≥ MAX32 ∨
        beg ≥ MAX32) := by
      rw [max16_eq, max32_eq]; exact hcond
    simp [zip_end, if_neg hc, zip_put_ok, hput, hbad]
  · simp [eocd_bytes]
  · simp only [eocd_bytes, clamp16_eq, clamp32_eq]
  · simp [xend_bytes]
  · simp [loc_bytes]

/-- Witness for C4: a concrete empty archive emits only the 22-byte end
record, with no Zip64 records. -/
theorem claim_C4_end_records_witness :
    (zip_end eW zW 0).out = zW.out ++ eocd_bytes zW.heads.length
      (zW.off - 0) 0 ∧
    (eocd_bytes zW.heads.length (zW.off - 0) 0).length = 22 :=
  ⟨(claim_C4_end_records eW zW 0 (fun _ => rfl) rfl).2.1 (by decide),
   (claim_C4_end_records eW zW 0 (fun _ => rfl) rfl).2.2.1⟩

/-- Claim C7: every invalid call returns -1 and leaves the session state
unchanged: meta with a null session, an invalid handle, a null path, an
os outside 3 and 10, a path longer than 65535 bytes, or during an
outstanding fed entry; data outside a fed entry, with a null session or
an invalid handle, or with a null buffer and nonzero length; a
data(len = 0, last = false) call is a no-op that emits nothing; and a
path of exactly 65535 bytes is accepted. -/
theorem claim_C7_invalid_calls (e : ZExt) (z : ZipState)
    (path : List Nat) (os : Int) (a : MetaArgs) (buf : Option (List Nat))
    (len : Nat) (last : Bool) :
    zip_meta none (some path) os a = (-1, none) ∧
    (z.valid = false → zip_meta (some z) (some path) os a = (-1, some z)) ∧
    zip_meta (some z) none os a = (-1, some z) ∧
    (z.feed ≠ 0 → zip_meta (some z) (some path) os a = (-1, some z)) ∧
    (65535 < path.length →
      zip_meta (some z) (some path) os a = (-1, some z)) ∧
    (os ≠ 3 → os ≠ 10 →
      zip_meta (some z) (some path) os a = (-1, some z)) ∧
    zip_data e none buf len last = (-1, none) ∧
    (z.valid = false → zip_data e (some z) buf len last = (-1, some z)) ∧
    (z.feed = 0 → zip_data e (some z) buf len last = (-1, some z)) ∧
    (buf = none → len ≠ 0 →
      zip_data e (some z) buf len last = (-1, some z)) ∧
    (z.valid = true → z.feed ≠ 0 →
      zip_data e (some z) buf 0 false =
        ((if z.bad then 1 else 0), some z)) ∧
    (z.valid = true → z.feed = 0 → path.length = 65535 →
      ∃ w : ZipState, zip_meta (some z) (some path) 3 a = (0, some w) ∧
        w.feed = 1) := by
  refine ⟨?_, ?_, ?_, ?_, ?_, ?_, ?_, ?_, ?_, ?_, ?_, ?_⟩
  · rfl
  · intro hv; simp [zip_meta, hv]
  · simp [zip_meta]
  · intro hf; simp [zip_meta, hf]
  · intro hlen
    by_cases h1 : z.valid = false ∨ z.feed ≠ 0 <;>
      simp [zip_meta, hlen]
  · intro h3 h10
    simp only [zip_meta]
    by_cases h1 : z.valid = false ∨ (some path : Option (List Nat)) = none ∨
        z.feed ≠ 0
    · rw [if_pos h1]
    · rw [if_neg h1]
      by_cases h2 : 65535 < path.length
      · simp [h2]
      · simp [h2, h3, h10]
  · rfl
  · intro hv; simp [zip_data, hv]
  · intro hf; simp [zip_data, hf]
  · intro hb hl; simp [zip_data, hb, hl]
  · intro hv hf
    simp [zip_data, hv, hf]
  · intro hv hf hlen
    simp [zip_meta, hv, hf, hlen]

/-- Witness for C7: concrete invalid and boundary calls. -/
theorem claim_C7_invalid_calls_witness :
    zip_meta none (some [97]) 3 aW = (-1, none) ∧
    zip_meta (some zW) (some [97]) 7 aW = (-1, some zW) ∧
    zip_data eW (some zWfeed) (some [1]) 0 false = (0, some zWfeed) := by
  have h := claim_C7_invalid_calls eW zW [97] 7 aW (some [1]) 0 false
  have h2 := claim_C7_invalid_calls eW zWfeed [97] 7 aW (some [1]) 0 false
  refine ⟨h.1, h.2.2.2.2.2.1 (by decide) (by decide), ?_⟩
  have := h2.2.2.2.2.2.2.2.2.2.2.1 rfl (by decide)
  simpa using this

-- With the write-error flag latched, the local header writes are
-- discarded and the state is unchanged.
theorem zip_local_bad (e : ZExt) (z : ZipState) (hz : z.bad = true) :
    zip_local e z = z := by
  simp [zip_local, zip_put_bad, hz]

-- With the write-error flag latched, the body of zip_data returns 1
-- right after the discarded write: nothing is emitted, nothing is
-- committed, and the feed state does not return to idle.
theorem zip_data_core_bad (e : ZExt) (z : ZipState) (input : List Nat)
    (last : Bool) (hbad : z.bad = true) :
    (zip_data_core e z input last).1 = 1 ∧
    (zip_data_core e z input last).2.out = z.out ∧
    (zip_data_core e z input last).2.off = z.off ∧
    (zip_data_core e z input last).2.calls = z.calls ∧
    (zip_data_core e z input last).2.heads = z.heads ∧
    (zip_data_core e z input last).2.feed =
      (if z.feed = 1 then 2 else z.feed) ∧
    (zip_data_core e z input last).2.bad = true := by
  by_cases hf : z.feed = 1 <;> by_cases hi : input.length = 0 <;>
    simp [zip_data_core, zip_local_bad, zip_put_bad, hbad, hf, hi]

/-- Counterexample for C8: with the write-error flag latched on a
concrete session awaiting its first data, data(NULL, 0, last = true)
returns 1 but leaves the feed state at 2 (in-data) instead of returning
the session to idle as the claim states, because zip_data returns right
after the discarded write, before the completion steps. -/
theorem claim_C8_counterexample :
    (zip_data eW (some zBad) none 0 true).1 = 1 ∧
    ((zip_data eW (some zBad) none 0 true).2.getD zW).feed = 2 ∧
    ¬ ((zip_data eW (some zBad) none 0 true).2.getD zW).feed = 0 := by
  decide

/-- Claim C8 (amended): once the put callback has returned nonzero,
subsequent API calls emit no output: data(..., last = true) returns 1
without completing the entry, leaving the state machine in the in-data
state (feed = 2) rather than returning it to idle, with the output, the
offset, the callback count and the committed entries untouched; close()
synthesises a data(NULL, 0, 1) only when no write error is latched, and
close() on a valid session is terminal, freeing the session, emitting
nothing further, and returning 1. -/
theorem claim_C8_write_error_shutdown (e : ZExt) (z : ZipState)
    (buf : Option (List Nat)) (len : Nat)
    (hvalid : z.valid = true) (hbad : z.bad = true)
    (hfeed : z.feed = 1 ∨ z.feed = 2)
    (hbuf : ¬(buf = none ∧ len ≠ 0)) :
    (zip_data e (some z) buf len true).1 = 1 ∧
    ((zip_data e (some z) buf len true).2.getD z).out = z.out ∧
    ((zip_data e (some z) buf len true).2.getD z).off = z.off ∧
    ((zip_data e (some z) buf len true).2.getD z).calls = z.calls ∧
    ((zip_data e (some z) buf len true).2.getD z).heads = z.heads ∧
    ((zip_data e (some z) buf len true).2.getD z).feed = 2 ∧
    ((zip_data e (some z) buf len true).2.getD z).bad = true ∧
    zip_close e (some z) = (1, none) ∧
    zip_close_state e z = z := by
  have hf0 : ¬(z.valid = false ∨ z.feed = 0 ∨ (buf = none ∧ len ≠ 0)) := by
    rcases hfeed with h | h <;> simp [hvalid, h, hbuf]
  have hstate : zip_close_state e z = z := by
    simp only [zip_close_state, hbad]
    rw [if_neg (by simp [hbad])]
    rw [central_foldl_bad e z.heads z hbad, zip_end_bad e _ _ hbad]
  obtain ⟨hr, hout, hoff, hcalls, hheads, hfeedr, hbadr⟩ :=
    zip_data_core_bad e z ((buf.getD []).take len) true hbad
  have hunf : zip_data e (some z) buf len true =
      ((zip_data_core e z ((buf.getD []).take len) true).1,
       some (zip_data_core e z ((buf.getD []).take len) true).2) := by
    simp only [zip_data]
    rw [if_neg hf0, if_neg (by simp)]
  have hfeed2 :
      (zip_data_core e z ((buf.getD []).take len) true).2.feed = 2 := by
    rw [hfeedr]; rcases hfeed with hf | hf <;> simp [hf]
  refine ⟨?_, ?_, ?_, ?_, ?_, ?_, ?_, ?_, hstate⟩
  · rw [hunf]; exact hr
  · rw [hunf]; exact hout
  · rw [hunf]; exact hoff
  · rw [hunf]; exact hcalls
  · rw [hunf]; exact hheads
  · rw [hunf]; exact hfeed2
  · rw [hunf]; exact hbadr
  · simp [zip_close, hvalid, hstate, hbad]

/-- Witness for C8 (amended): the concrete latched session returns 1 from
data and 1 from close, which frees it. -/
theorem claim_C8_write_error_shutdown_witness :
    (zip_data eW (some zBad) none 0 true).1 = 1 ∧
    zip_close eW (some zBad) = (1, none) := by
  have h := claim_C8_write_error_shutdown eW zBad none 0 rfl rfl
    (Or.inl rfl) (by simp)
  exact ⟨h.1, h.2.2.2.2.2.2.2.1⟩

/-- Claim C9 (spec-modelled): the level operation exists, returns 0 on
success or 1 after a latched write error, and reconfigures the deflate
engine compression level between entries, so that a later entry is
compressed at the new level and its local header flags encode it. -/
theorem claim_C9_zip_level (e : ZExt) (z : ZipState) (lvl : Int)
    (path : List Nat) (reads : List (List Nat))
    (hput : ∀ n, e.put n = false) (hbad : z.bad = false)
    (homit : z.omit_flag = false) (hpath : path.length ≤ 65535) :
    zip_level z lvl = (0, { z with level := lvl }) ∧
    (∀ zb : ZipState, zb.bad = true → zip_level zb lvl = (1, zb)) ∧
    ∃ w : ZipState,
      zip_file e path true reads false ((zip_level z lvl).2) = w ∧
      w.out = z.out ++
        local_bytes e lvl { z.cur with
          name := path
          nlen := path.length
          off := z.off } ++
        path ++ e.compress lvl (readConsumed reads) ++
        zip_desc_bytes w.cur := by
  have h1 : zip_level z lvl = (0, { z with level := lvl }) := by
    simp [zip_level, hbad]
  refine ⟨h1, fun zb hb => by simp [zip_level, hb], ?_⟩
  obtain ⟨w, c, hw, hcur, _, _, _, _, _, _, _, _, hout⟩ :=
    zip_file_ok e path reads false { z with level := lvl } hput
      (by simp [hbad]) (by simp [homit]) hpath
  refine ⟨w, ?_, ?_⟩
  · rw [h1]
    exact hw
  · simpa using hout

/-- Witness for C9: changing the level on a concrete fresh session
succeeds and stores the new level. -/
theorem claim_C9_zip_level_witness :
    zip_level zW 1 = (0, { zW with level := 1 }) :=
  (claim_C9_zip_level eW zW 1 [97] [[3]] (fun _ => rfl) rfl rfl
    (by decide)).1
